import Mathlib

/-!
# govidya: capture / write / rotate pipeline of `main.go`

Shallow embedding of the three goroutines of `main.go`
(`imageBufferRoutine`, `imageWriterRoutine`, `writerSwapRoutine`), of the
coordinator `main`, and of the helpers `writeImage`, `newWriter`,
`bufferImage` and `initialize`.

Each goroutine is a labelled transition system over its program points; the
whole program is their composition over Go channels: the kill channels, the
done channel and `writerSwapChannel` are unbuffered (a send and a receive
happen together), `imgBufferChannel` has the configured capacity.
Results of external calls (gocv, the ticker, stdin) are chosen by the
environment and appear as labels.

A frame (`*gocv.Mat`) and a sink (`*gocv.VideoWriter`) are named by a natural
number: frames are numbered in the order they are read, sinks in the order
they are opened, sink 0 being the one `initialize` opens.
-/

namespace Govidya

/-- Calls made on the external sink and frame objects, in program order. -/
inductive Op
  | opened (w : Nat)
  | close (w : Nat) (ok : Bool)
  | write (w : Nat) (img : Nat) (ok : Bool)
  | matClose (img : Nat)
  | wgDone
  deriving DecidableEq, Repr

/-! ## Helpers -/

/-- `bufferImage` (lines 201-209): a fresh frame when the read succeeds,
`nil` with an error otherwise. -/
def bufferImage (readOk : Bool) (fresh : Nat) : Option Nat :=
  if readOk then some fresh else none

/-- `writeImage` (lines 211-227): one `Write` when `writer.IsOpened()`, whose
error is only printed; then `img.Close()` and `wg.Done()`. -/
def writeImage (writer : Nat) (img : Nat) (isOpened writeOk : Bool) : List Op :=
  (if isOpened then [Op.write writer img writeOk] else []) ++ [Op.matClose img, Op.wgDone]

/-! ## Capture worker -/

/-- Program points of `imageBufferRoutine`. -/
inductive BufPc
  | loop
  | sendImg (img : Nat)
  | killSwap
  | killWriter
  | done
  | exited
  deriving DecidableEq, Repr

/-- Steps of `imageBufferRoutine`. -/
inductive BufAct
  | recvKill
  | read (r : Option Nat)
  | sentImg
  | sentKillSwap
  | sentKillWriter
  | sentDone
  deriving DecidableEq, Repr

/-- `imageBufferRoutine` (lines 90-111). -/
def imageBufferRoutine : BufPc → BufAct → Option BufPc
  | .loop, .recvKill => some .done
  | .loop, .read (some img) => some (.sendImg img)
  | .loop, .read none => some .killSwap
  | .sendImg _, .sentImg => some .loop
  | .killSwap, .sentKillSwap => some .killWriter
  | .killWriter, .sentKillWriter => some .done
  | .done, .sentDone => some .exited
  | _, _ => none

/-! ## Write worker -/

/-- Program points of `imageWriterRoutine`; `writer` is the local variable
holding the active sink. -/
inductive WriterPc
  | select (writer : Nat)
  | closeOnKill (writer : Nat)
  | closeOld (writer : Nat) (writerSwapSignal : Nat)
  | write (writer : Nat) (img : Nat)
  | killBuf (writer : Nat)
  | killSwap (writer : Nat)
  | done
  | exited
  deriving DecidableEq, Repr

/-- Steps of `imageWriterRoutine`. -/
inductive WriterAct
  | recvKill
  | recvSwap (writerSwapSignal : Nat)
  | recvImg (img : Nat)
  | closeWriter (ok : Bool)
  | closeOldWriter (ok : Bool)
  | writeImage (isOpened writeOk : Bool)
  | sentKillBuf
  | sentKillSwap
  | sentDone
  deriving DecidableEq, Repr

/-- `imageWriterRoutine` (lines 113-147): the next program point and the
calls made on sinks and frames. After `wg.Add(1)`, `wg.Wait()` lets the loop
go on only when `writeImage` has called `wg.Done()` exactly once. -/
def imageWriterRoutine : WriterPc → WriterAct → Option (WriterPc × List Op)
  | .select writer, .recvKill => some (.closeOnKill writer, [])
  | .closeOnKill writer, .closeWriter ok => some (.done, [Op.close writer ok])
  | .select writer, .recvSwap sig => some (.closeOld writer sig, [])
  | .closeOld oldWriter sig, .closeOldWriter ok =>
      if ok then some (.select sig, [Op.close oldWriter true])
      else some (.killBuf oldWriter, [Op.close oldWriter false])
  | .killBuf writer, .sentKillBuf => some (.killSwap writer, [])
  | .killSwap _, .sentKillSwap => some (.done, [])
  | .select writer, .recvImg img => some (.write writer img, [])
  | .write writer img, .writeImage isOpened writeOk =>
      let ops := writeImage writer img isOpened writeOk
      if ops.count Op.wgDone = 1 then some (.select writer, ops) else none
  | .done, .sentDone => some (.exited, [])
  | _, _ => none

/-! ## Rotation scheduler -/

/-- Program points of `writerSwapRoutine`. -/
inductive SwapPc
  | select
  | sendWriter (newWriterPtr : Nat)
  | killWriter
  | killBuf
  | doneInLoop
  | done
  | exited
  deriving DecidableEq, Repr

/-- Steps of `writerSwapRoutine`; `tick r` is a tick of the ticker followed
by `newWriter` returning `r`. -/
inductive SwapAct
  | recvKill
  | tick (r : Option Nat)
  | sentWriter
  | sentKillWriter
  | sentKillBuf
  | sentDone
  deriving DecidableEq, Repr

/-- `writerSwapRoutine` (lines 149-176). -/
def writerSwapRoutine : SwapPc → SwapAct → Option (SwapPc × List Op)
  | .select, .recvKill => some (.done, [])
  | .select, .tick (some w) => some (.sendWriter w, [Op.opened w])
  | .select, .tick none => some (.killWriter, [])
  | .sendWriter _, .sentWriter => some (.select, [])
  | .killWriter, .sentKillWriter => some (.killBuf, [])
  | .killBuf, .sentKillBuf => some (.doneInLoop, [])
  | .doneInLoop, .sentDone => some (.done, [])
  | .done, .sentDone => some (.exited, [])
  | _, _ => none

/-! ## Coordinator -/

/-- Program points of `main` after the workers are launched (lines 75-88). -/
inductive MainPc
  | readRune
  | killSwap
  | killBuf
  | killWriter
  | wait1
  | wait2
  | wait3
  | finished
  deriving DecidableEq, Repr

/-- Steps of `main`. -/
inductive MainAct
  | stdin
  | sentKillSwap
  | sentKillBuf
  | sentKillWriter
  | recvDone
  deriving DecidableEq, Repr

/-- `main`, lines 75-88: wait for the operator, send the three kills in the
order rotation, capture, write, then receive three acknowledgments. -/
def main : MainPc → MainAct → Option MainPc
  | .readRune, .stdin => some .killSwap
  | .killSwap, .sentKillSwap => some .killBuf
  | .killBuf, .sentKillBuf => some .killWriter
  | .killWriter, .sentKillWriter => some .wait1
  | .wait1, .recvDone => some .wait2
  | .wait2, .recvDone => some .wait3
  | .wait3, .recvDone => some .finished
  | _, _ => none

/-! ## The composed program -/

/-- State of the running pipeline. -/
structure Sys where
  mainPc : MainPc
  buf : BufPc
  wr : WriterPc
  swap : SwapPc
  /-- Content of `imgBufferChannel`, oldest first. -/
  queue : List Nat
  /-- Number of frames read so far; the next frame gets this identity. -/
  nextMat : Nat
  /-- Number of sinks opened so far; the next sink gets this identity. -/
  nextWriter : Nat
  /-- Calls on sinks and frames so far, oldest first. -/
  ops : List Op
  deriving DecidableEq, Repr

/-- State after a successful `initialize` and the three `go` statements:
sink 0 is open and is the write worker's `writer`. -/
def start : Sys :=
  { mainPc := .readRune, buf := .loop, wr := .select 0, swap := .select,
    queue := [], nextMat := 0, nextWriter := 1, ops := [Op.opened 0] }

/-- Global events: one step of one goroutine, or a send together with its
receive. -/
inductive Ev
  | stdin
  | mainKillSwap
  | mainKillBuf
  | mainKillWriter
  | read (ok : Bool)
  | enqueue
  | pass
  | bufKillSwap
  | bufKillWriter
  | dequeue
  | closeOld (ok : Bool)
  | closeOnKill (ok : Bool)
  | writeImage (isOpened writeOk : Bool)
  | writerKillBuf
  | writerKillSwap
  | tick (ok : Bool)
  | handoff
  | swapKillWriter
  | swapKillBuf
  | doneBuf
  | doneWriter
  | doneSwap
  deriving DecidableEq, Repr

/-- The sink a rotation scheduler blocked on `writerSwapChannel` is sending. -/
def SwapPc.pending : SwapPc → Option Nat
  | .sendWriter w => some w
  | _ => none

/-- The frame a capture worker blocked on `imgBufferChannel` is sending. -/
def BufPc.pending : BufPc → Option Nat
  | .sendImg img => some img
  | _ => none

/-- One step of the program with `imgBufferChannel` of capacity `C`.

A send on an unbuffered channel happens together with the receive of a
goroutine standing at the matching `select`; `enqueue` needs room in the
buffer, `dequeue` a frame in it, and `pass` hands a frame over directly when
the buffer is empty (the only way through when `C = 0`). The `default` branch
of the capture worker's `select` is offered whether or not a kill is waiting:
Go prefers the kill only once its sender is parked on the channel. -/
def step (C : Nat) (s : Sys) : Ev → Option Sys
  | .stdin => do
      let m ← main s.mainPc .stdin
      some { s with mainPc := m }
  | .mainKillSwap => do
      let m ← main s.mainPc .sentKillSwap
      let (p, ops) ← writerSwapRoutine s.swap .recvKill
      some { s with mainPc := m, swap := p, ops := s.ops ++ ops }
  | .mainKillBuf => do
      let m ← main s.mainPc .sentKillBuf
      let b ← imageBufferRoutine s.buf .recvKill
      some { s with mainPc := m, buf := b }
  | .mainKillWriter => do
      let m ← main s.mainPc .sentKillWriter
      let (w, ops) ← imageWriterRoutine s.wr .recvKill
      some { s with mainPc := m, wr := w, ops := s.ops ++ ops }
  | .read ok => do
      let b ← imageBufferRoutine s.buf (.read (bufferImage ok s.nextMat))
      some { s with buf := b, nextMat := if ok then s.nextMat + 1 else s.nextMat }
  | .enqueue => do
      let img ← s.buf.pending
      let b ← imageBufferRoutine s.buf .sentImg
      if s.queue.length < C then some { s with buf := b, queue := s.queue ++ [img] }
      else none
  | .pass => do
      let img ← s.buf.pending
      let b ← imageBufferRoutine s.buf .sentImg
      let (w, ops) ← imageWriterRoutine s.wr (.recvImg img)
      if s.queue = [] then some { s with buf := b, wr := w, ops := s.ops ++ ops }
      else none
  | .bufKillSwap => do
      let b ← imageBufferRoutine s.buf .sentKillSwap
      let (p, ops) ← writerSwapRoutine s.swap .recvKill
      some { s with buf := b, swap := p, ops := s.ops ++ ops }
  | .bufKillWriter => do
      let b ← imageBufferRoutine s.buf .sentKillWriter
      let (w, ops) ← imageWriterRoutine s.wr .recvKill
      some { s with buf := b, wr := w, ops := s.ops ++ ops }
  | .dequeue => do
      let img ← s.queue.head?
      let (w, ops) ← imageWriterRoutine s.wr (.recvImg img)
      some { s with wr := w, queue := s.queue.tail, ops := s.ops ++ ops }
  | .closeOld ok => do
      let (w, ops) ← imageWriterRoutine s.wr (.closeOldWriter ok)
      some { s with wr := w, ops := s.ops ++ ops }
  | .closeOnKill ok => do
      let (w, ops) ← imageWriterRoutine s.wr (.closeWriter ok)
      some { s with wr := w, ops := s.ops ++ ops }
  | .writeImage isOpened writeOk => do
      let (w, ops) ← imageWriterRoutine s.wr (.writeImage isOpened writeOk)
      some { s with wr := w, ops := s.ops ++ ops }
  | .writerKillBuf => do
      let (w, ops) ← imageWriterRoutine s.wr .sentKillBuf
      let b ← imageBufferRoutine s.buf .recvKill
      some { s with wr := w, buf := b, ops := s.ops ++ ops }
  | .writerKillSwap => do
      let (w, ops) ← imageWriterRoutine s.wr .sentKillSwap
      let (p, ops2) ← writerSwapRoutine s.swap .recvKill
      some { s with wr := w, swap := p, ops := s.ops ++ ops ++ ops2 }
  | .tick ok => do
      let (p, ops) ← writerSwapRoutine s.swap
        (.tick (if ok then some s.nextWriter else none))
      some { s with swap := p, ops := s.ops ++ ops,
                    nextWriter := if ok then s.nextWriter + 1 else s.nextWriter }
  | .handoff => do
      let sig ← s.swap.pending
      let (p, ops) ← writerSwapRoutine s.swap .sentWriter
      let (w, ops2) ← imageWriterRoutine s.wr (.recvSwap sig)
      some { s with swap := p, wr := w, ops := s.ops ++ ops ++ ops2 }
  | .swapKillWriter => do
      let (p, ops) ← writerSwapRoutine s.swap .sentKillWriter
      let (w, ops2) ← imageWriterRoutine s.wr .recvKill
      some { s with swap := p, wr := w, ops := s.ops ++ ops ++ ops2 }
  | .swapKillBuf => do
      let (p, ops) ← writerSwapRoutine s.swap .sentKillBuf
      let b ← imageBufferRoutine s.buf .recvKill
      some { s with swap := p, buf := b, ops := s.ops ++ ops }
  | .doneBuf => do
      let b ← imageBufferRoutine s.buf .sentDone
      let m ← main s.mainPc .recvDone
      some { s with buf := b, mainPc := m }
  | .doneWriter => do
      let (w, ops) ← imageWriterRoutine s.wr .sentDone
      let m ← main s.mainPc .recvDone
      some { s with wr := w, mainPc := m, ops := s.ops ++ ops }
  | .doneSwap => do
      let (p, ops) ← writerSwapRoutine s.swap .sentDone
      let m ← main s.mainPc .recvDone
      some { s with swap := p, mainPc := m, ops := s.ops ++ ops }

/-- Run a sequence of events. -/
def exec (C : Nat) : Sys → List Ev → Option Sys
  | s, [] => some s
  | s, e :: es => (step C s e).bind fun t => exec C t es

/-- States the program can be in after a successful initialization. -/
def Reachable (C : Nat) (s : Sys) : Prop :=
  ∃ evs, exec C start evs = some s

/-! ## Segment file names -/

/-- Calendar reading of `time.Now()`. -/
structure Time where
  year : Int
  month : Nat
  day : Nat
  hour : Nat
  minute : Nat
  second : Nat
  deriving DecidableEq, Repr

/-- Readings a clock can give for the years 0000 to 9999. -/
def Time.valid (t : Time) : Prop :=
  0 ≤ t.year ∧ t.year ≤ 9999 ∧ 1 ≤ t.month ∧ t.month ≤ 12 ∧ 1 ≤ t.day ∧ t.day ≤ 31 ∧
    t.hour < 24 ∧ t.minute < 60 ∧ t.second < 60

instance (t : Time) : Decidable t.valid := by
  unfold Time.valid
  infer_instance

/-- The decimal digit `d % 10` as a character. -/
def digit (d : Nat) : Char := Char.ofNat (48 + d % 10)

/-- Go's `appendInt`: the decimal digits of `x`, zero padded to `width`,
after a minus sign when `x` is negative. -/
def appendInt (x : Int) (width : Nat) : List Char :=
  let u := x.natAbs
  (if x < 0 then ['-'] else []) ++
    (if width = 2 ∧ u < 100 then [digit (u / 10), digit u]
     else if width = 4 ∧ u < 10000 then
       [digit (u / 1000), digit (u / 100), digit (u / 10), digit u]
     else
       let ds := Nat.toDigits 10 u
       List.replicate (width - ds.length) '0' ++ ds)

/-- `t.Format("2006-01-02T150405")`: the layout holds the year, the month and
the day with dashes, the letter T, then hour, minute and second. -/
def Time.format (t : Time) : String :=
  String.mk (appendInt t.year 4 ++ ['-'] ++ appendInt t.month 2 ++ ['-'] ++ appendInt t.day 2
    ++ ['T'] ++ appendInt t.hour 2 ++ appendInt t.minute 2 ++ appendInt t.second 2)

/-- Lines 231-233 of `newWriter`: the name of the file to open. -/
def newWriterFilename (t : Time) (saveFile : String) : String :=
  let timestamp := t.format
  "-".intercalate [timestamp, saveFile]

/-- `newWriter` (lines 229-241); `videoWriterFile` is `gocv.VideoWriterFile`
at the given codec, rate and size, `none` being an error. -/
def newWriter (saveFile : String) (t : Time) (videoWriterFile : String → Option Nat) :
    Option Nat :=
  match videoWriterFile (newWriterFilename t saveFile) with
  | none => none
  | some writer => some writer

/-! ## Initialization -/

/-- Values returned by `initialize`; a nil pointer is `none`. -/
structure InitResult where
  webcam : Option Nat
  writer : Option Nat
  img : Option Nat
  cols : Nat
  rows : Nat
  err : Option String
  deriving DecidableEq, Repr

/-- `initialize` (lines 178-199): `webcam` is the result of
`gocv.VideoCaptureDevice` (the handle, or gocv's error), `readOk` the result of
the first read, `cols` and `rows` the size of the frame read, `writer` the
result of `newWriter` (the sink, or gocv's error). On a failure every handle
returned is nil; a failed read gives the error `cannot read device` followed
by the device number. -/
def initializeMain (deviceID : Int) (webcam : Except String Nat) (readOk : Bool)
    (cols rows : Nat) (writer : Except String Nat) : InitResult :=
  match webcam with
  | .error err => ⟨none, none, none, 0, 0, some err⟩
  | .ok cam =>
    if !readOk then ⟨none, none, none, 0, 0, some ("cannot read device " ++ toString deviceID)⟩
    else
      match writer with
      | .error err => ⟨none, none, none, 0, 0, some err⟩
      | .ok w => ⟨some cam, some w, some 0, cols, rows, none⟩

/-- What `main` does with the values returned by `initialize`. -/
inductive MainOp
  | deferWebcamClose (webcam : Option Nat)
  | imgClose (img : Option Nat)
  | errCheck
  | printErr (err : String)
  | makeQueue
  | launchWorkers
  | webcamClose (webcam : Option Nat)
  deriving DecidableEq, Repr

/-- How the first lines of `main` end. -/
inductive MainEnd
  | panicked
  | returned
  | launched
  deriving DecidableEq, Repr

/-- Lines 44-68 of `main`: the deferred `webcam.Close()` is registered and
`img.Close()` is called before `err` is looked at. On a nil frame that call
reads a field of the nil `*gocv.Mat` and panics: `main` ends there, the
deferred call being all that still runs, and the check of `err` is not
reached. On a frame that is not nil `main` goes on to the check, and either
prints the error and returns or makes the channels and launches the workers. -/
def mainPrologue (r : InitResult) : List MainOp × MainEnd :=
  match r.img with
  | none =>
      ([.deferWebcamClose r.webcam, .imgClose none, .webcamClose r.webcam], .panicked)
  | some img =>
    match r.err with
    | some err =>
        ([.deferWebcamClose r.webcam, .imgClose (some img), .errCheck, .printErr err,
          .webcamClose r.webcam], .returned)
    | none =>
        ([.deferWebcamClose r.webcam, .imgClose (some img), .errCheck, .makeQueue,
          .launchWorkers], .launched)

/-! ## Runs of one worker -/

/-- A run of `imageBufferRoutine` from a program point. -/
def bufRun : BufPc → List BufAct → Option BufPc
  | p, [] => some p
  | p, a :: as => (imageBufferRoutine p a).bind fun q => bufRun q as

/-- A run of `imageWriterRoutine`, with the calls it makes. -/
def writerRun : WriterPc → List WriterAct → Option (WriterPc × List Op)
  | p, [] => some (p, [])
  | p, a :: as =>
    (imageWriterRoutine p a).bind fun q =>
      (writerRun q.1 as).map fun r => (r.1, q.2 ++ r.2)

/-- A run of `writerSwapRoutine`, with the calls it makes. -/
def swapRun : SwapPc → List SwapAct → Option (SwapPc × List Op)
  | p, [] => some (p, [])
  | p, a :: as =>
    (writerSwapRoutine p a).bind fun q =>
      (swapRun q.1 as).map fun r => (r.1, q.2 ++ r.2)

/-- Number of `Write` calls among the operations. -/
def writeAttempts (ops : List Op) : Nat :=
  ops.countP fun o => match o with
    | .write _ _ _ => true
    | _ => false

/-- Number of `img.Close()` calls on the frame `img`. -/
def releases (img : Nat) (ops : List Op) : Nat :=
  ops.count (Op.matClose img)

/-! ## Quantities the properties speak about -/

/-- Acknowledgments `imageBufferRoutine` still has to send. -/
def BufPc.acksDue : BufPc → Nat
  | .exited => 0
  | _ => 1

/-- Acknowledgments `imageWriterRoutine` still has to send. -/
def WriterPc.acksDue : WriterPc → Nat
  | .exited => 0
  | _ => 1

/-- Acknowledgments `writerSwapRoutine` still has to send: two once
`newWriter` has failed, the one inside the loop and the one after it. -/
def SwapPc.acksDue : SwapPc → Nat
  | .exited => 0
  | .killWriter => 2
  | .killBuf => 2
  | .doneInLoop => 2
  | _ => 1

/-- The frame an `img.Close()` releases. -/
def Op.released? : Op → Option Nat
  | .matClose img => some img
  | _ => none

/-- The frame the write worker has received and not yet released. -/
def WriterPc.inHand : WriterPc → List Nat
  | .write _ img => [img]
  | _ => []

/-- Every frame read so far, in the order of the pipeline: released, in the
write worker's hands, in `imgBufferChannel`, waiting to be sent. -/
def framesAccounted (s : Sys) : List Nat :=
  s.ops.filterMap Op.released? ++ s.wr.inHand ++ s.queue ++ s.buf.pending.toList

/-- The sink a `Close` call is made on. -/
def Op.closed? : Op → Option Nat
  | .close w _ => some w
  | _ => none

/-- The sink an open creates. -/
def Op.opened? : Op → Option Nat
  | .opened w => some w
  | _ => none

/-- The sink a `Write` call goes through. -/
def Op.written? : Op → Option Nat
  | .write w _ _ => some w
  | _ => none

/-- Sinks on which the write worker has called `Close`, one entry a call. -/
def closedSinks (ops : List Op) : List Nat := ops.filterMap Op.closed?

/-- Sinks opened by `initialize` and by `newWriter`. -/
def openedSinks (ops : List Op) : List Nat := ops.filterMap Op.opened?

/-- Number of `Close` calls made so far. -/
def closeCalls (ops : List Op) : Nat := (closedSinks ops).length

/-- Number of sinks that are opened and on which `Close` has not been called. -/
def unclosedSinks (s : Sys) : Nat :=
  ((openedSinks s.ops).filter fun w => w ∉ closedSinks s.ops).length

/-- One when the rotation scheduler holds a sink it has opened and not yet
handed over. -/
def SwapPc.sending : SwapPc → Nat
  | .sendWriter _ => 1
  | _ => 0

/-- One when the write worker has received a new sink and has not yet called
`Close` on the old one. -/
def WriterPc.received : WriterPc → Nat
  | .closeOld _ _ => 1
  | _ => 0

/-- No `Write` goes through a sink after a `Close` call on that sink: of two
calls, the earlier is no `Close`, or the later is no `Write` through the sink
the earlier one closes. -/
def NoWriteAfterClose (ops : List Op) : Prop :=
  ops.Pairwise fun o1 o2 => o1.closed? = none ∨ o2.written? ≠ o1.closed?

instance (ops : List Op) : Decidable (NoWriteAfterClose ops) := by
  unfold NoWriteAfterClose
  infer_instance

/-- The sinks of the `Write` calls made so far, in order. -/
def writtenSinks (ops : List Op) : List Nat := ops.filterMap Op.written?

/-- How sinks are numbered along a run: they are opened in the order
0, 1, 2, ..., closed in the same order, and the write worker's `writer` is the
first sink not yet closed. -/
def SinkInv (s : Sys) : Prop :=
  openedSinks s.ops = List.range s.nextWriter ∧
  closedSinks s.ops = List.range (closeCalls s.ops) ∧
  (∀ w, s.swap = .sendWriter w → w + 1 = s.nextWriter) ∧
  (match s.wr with
    | .select a => closeCalls s.ops = a ∧ a + 1 + s.swap.sending = s.nextWriter
    | .write a _ => closeCalls s.ops = a ∧ a + 1 + s.swap.sending = s.nextWriter
    | .closeOnKill a => closeCalls s.ops = a ∧ a + 1 + s.swap.sending = s.nextWriter
    | .closeOld a sig =>
        closeCalls s.ops = a ∧ sig = a + 1 ∧ a + 2 + s.swap.sending = s.nextWriter
    | .killBuf a => closeCalls s.ops = a + 1 ∧ a + 2 + s.swap.sending = s.nextWriter
    | .killSwap a => closeCalls s.ops = a + 1 ∧ a + 2 + s.swap.sending = s.nextWriter
    | _ => closeCalls s.ops + s.swap.sending ≤ s.nextWriter ∧
        s.nextWriter ≤ closeCalls s.ops + 1 + s.swap.sending)

/-- A worker's fatal error: a failed read, a failed `oldWriter.Close()`, a
failed `newWriter`. -/
def Ev.fatal : Ev → Bool
  | .read false => true
  | .closeOld false => true
  | .tick false => true
  | _ => false

/-- All three workers have returned and `main` has received its three
acknowledgments. -/
def Sys.shutdownComplete (s : Sys) : Prop :=
  s.mainPc = .finished ∧ s.buf = .exited ∧ s.wr = .exited ∧ s.swap = .exited

instance (s : Sys) : Decidable s.shutdownComplete := by
  unfold Sys.shutdownComplete
  infer_instance

/-- No step is possible: every goroutine is blocked on a channel or has
returned. -/
def Sys.deadlocked (C : Nat) (s : Sys) : Prop :=
  ∀ ev, step C s ev = none

/-! ## The clock and the ticker -/

/-- Events of the timed program: a second passes, or the pipeline makes a
step. -/
inductive TEv
  | advance
  | ev (e : Ev)
  deriving DecidableEq, Repr

/-- A fatal error among the timed events. -/
def TEv.fatal : TEv → Bool
  | .advance => false
  | .ev e => e.fatal

/-- The write worker's `writer` is `sig` and stays so until the next receive
on `writerSwapChannel`. -/
def WriterPc.activeIs (sig : Nat) : WriterPc → Prop
  | .select w => w = sig
  | .write w _ => w = sig
  | .closeOnKill w => w = sig
  | .done => True
  | .exited => True
  | _ => False

/-- Acknowledgments `main` has received. -/
def MainPc.acksReceived : MainPc → Nat
  | .wait2 => 1
  | .wait3 => 2
  | .finished => 3
  | _ => 0

/-- The capture worker is in its loop. -/
def BufPc.running : BufPc → Bool
  | .loop => true
  | .sendImg _ => true
  | _ => false

/-- The write worker is in its loop and has received no kill. -/
def WriterPc.running : WriterPc → Bool
  | .select _ => true
  | .closeOld _ _ => true
  | .write _ _ => true
  | _ => false

/-- The rotation scheduler is in its loop. -/
def SwapPc.running : SwapPc → Bool
  | .select => true
  | .sendWriter _ => true
  | _ => false

/-- The capture worker has left its loop after a kill. -/
def BufPc.halted : BufPc → Bool
  | .done => true
  | .exited => true
  | _ => false

/-- The write worker has received its kill. -/
def WriterPc.halted : WriterPc → Bool
  | .closeOnKill _ => true
  | .done => true
  | .exited => true
  | _ => false

/-- The rotation scheduler has left its loop after a kill. -/
def SwapPc.halted : SwapPc → Bool
  | .done => true
  | .exited => true
  | _ => false

/-- Where the four goroutines can be, relative to each other, as long as no
worker has had a fatal error: the acknowledgments received and those still due
add up to three, and `main` has got past a kill exactly when the addressed
worker has taken it. -/
def CleanInv (s : Sys) : Prop :=
  s.mainPc.acksReceived + s.buf.acksDue + s.wr.acksDue + s.swap.acksDue = 3 ∧
  (match s.mainPc with
    | .readRune => s.swap.running ∧ s.buf.running ∧ s.wr.running
    | .killSwap => s.swap.running ∧ s.buf.running ∧ s.wr.running
    | .killBuf => s.swap = .done ∧ s.buf.running ∧ s.wr.running
    | .killWriter => s.swap = .done ∧ s.buf = .done ∧ s.wr.running
    | _ => s.swap.halted ∧ s.buf.halted ∧ s.wr.halted)

/-- A step that brings the shutdown forward: the write worker finishes what
it holds, otherwise `main` moves, helped by whoever blocks it. -/
def nextEv (s : Sys) : Ev :=
  match s.wr with
  | .closeOld _ _ => .closeOld true
  | .write _ _ => .writeImage true true
  | .closeOnKill _ => .closeOnKill true
  | _ =>
    match s.mainPc with
    | .readRune => .stdin
    | .killSwap => if s.swap = .select then .mainKillSwap else .handoff
    | .killBuf =>
        if s.buf = .loop then .mainKillBuf else if s.queue = [] then .pass else .dequeue
    | .killWriter => .mainKillWriter
    | _ => if s.buf = .done then .doneBuf else if s.swap = .done then .doneSwap else .doneWriter

/-- Steps `main` still has to make. -/
def MainPc.rank : MainPc → Nat
  | .readRune => 7
  | .killSwap => 6
  | .killBuf => 5
  | .killWriter => 4
  | .wait1 => 3
  | .wait2 => 2
  | .wait3 => 1
  | .finished => 0

/-- One when the write worker is between a receive and the call it leads to. -/
def WriterPc.busy : WriterPc → Nat
  | .closeOld _ _ => 1
  | .write _ _ => 1
  | .closeOnKill _ => 1
  | _ => 0

/-- One when the capture worker holds a frame it has not yet sent. -/
def BufPc.sending : BufPc → Nat
  | .sendImg _ => 1
  | _ => 0

/-- A bound on the steps of `nextEv` before the shutdown is complete. -/
def stepsLeft (s : Sys) : Nat :=
  10 * s.mainPc.rank + 3 * s.swap.sending + 3 * s.buf.sending + 2 * s.queue.length + s.wr.busy

/-- A worker is still in its loop only while `main` has not got past the kill
addressed to it. -/
def KillOrder (s : Sys) : Prop :=
  (s.swap.running → 6 ≤ s.mainPc.rank) ∧ (s.buf.running → 5 ≤ s.mainPc.rank) ∧
    (s.wr.running → 4 ≤ s.mainPc.rank)

/-- A worker has left its loop on its own and `main` still has to send it a
kill. -/
def Stranded (s : Sys) : Prop :=
  (s.swap.running = false ∧ 6 ≤ s.mainPc.rank) ∨ (s.buf.running = false ∧ 5 ≤ s.mainPc.rank) ∨
    (s.wr.running = false ∧ 4 ≤ s.mainPc.rank)

/-- The write worker is past a failed `oldWriter.Close()` on `old`: it stands
at one of its two kills or at its acknowledgment, and has not returned. -/
def WriterPc.afterFailedClose (old : Nat) : WriterPc → Prop
  | .killBuf w => w = old
  | .killSwap w => w = old
  | .done => True
  | _ => False

end Govidya

/-! # Properties -/

namespace Govidya

/-! ## Reading the steps backwards -/

@[simp] theorem main_stdin_iff {p q : MainPc} :
    main p .stdin = some q ↔ p = .readRune ∧ q = .killSwap := by
  cases p <;> simp [main, eq_comm]

@[simp] theorem main_sentKillSwap_iff {p q : MainPc} :
    main p .sentKillSwap = some q ↔ p = .killSwap ∧ q = .killBuf := by
  cases p <;> simp [main, eq_comm]

@[simp] theorem main_sentKillBuf_iff {p q : MainPc} :
    main p .sentKillBuf = some q ↔ p = .killBuf ∧ q = .killWriter := by
  cases p <;> simp [main, eq_comm]

@[simp] theorem main_sentKillWriter_iff {p q : MainPc} :
    main p .sentKillWriter = some q ↔ p = .killWriter ∧ q = .wait1 := by
  cases p <;> simp [main, eq_comm]

@[simp] theorem main_recvDone_iff {p q : MainPc} :
    main p .recvDone = some q ↔
      (p = .wait1 ∧ q = .wait2) ∨ (p = .wait2 ∧ q = .wait3) ∨ (p = .wait3 ∧ q = .finished) := by
  cases p <;> simp [main, eq_comm]

@[simp] theorem buf_recvKill_iff {p q : BufPc} :
    imageBufferRoutine p .recvKill = some q ↔ p = .loop ∧ q = .done := by
  cases p <;> simp [imageBufferRoutine, eq_comm]

@[simp] theorem buf_read_iff {p q : BufPc} {r : Option Nat} :
    imageBufferRoutine p (.read r) = some q ↔
      p = .loop ∧ q = (match r with | some img => .sendImg img | none => .killSwap) := by
  cases p <;> cases r <;> simp [imageBufferRoutine, eq_comm]

@[simp] theorem buf_sentImg_iff {p q : BufPc} :
    imageBufferRoutine p .sentImg = some q ↔ (∃ img, p = .sendImg img) ∧ q = .loop := by
  cases p <;> simp [imageBufferRoutine, eq_comm]

@[simp] theorem buf_sentKillSwap_iff {p q : BufPc} :
    imageBufferRoutine p .sentKillSwap = some q ↔ p = .killSwap ∧ q = .killWriter := by
  cases p <;> simp [imageBufferRoutine, eq_comm]

@[simp] theorem buf_sentKillWriter_iff {p q : BufPc} :
    imageBufferRoutine p .sentKillWriter = some q ↔ p = .killWriter ∧ q = .done := by
  cases p <;> simp [imageBufferRoutine, eq_comm]

@[simp] theorem buf_sentDone_iff {p q : BufPc} :
    imageBufferRoutine p .sentDone = some q ↔ p = .done ∧ q = .exited := by
  cases p <;> simp [imageBufferRoutine, eq_comm]

@[simp] theorem buf_pending_iff {p : BufPc} {img : Nat} :
    p.pending = some img ↔ p = .sendImg img := by
  cases p <;> simp [BufPc.pending, eq_comm]

@[simp] theorem swap_pending_iff {p : SwapPc} {w : Nat} :
    p.pending = some w ↔ p = .sendWriter w := by
  cases p <;> simp [SwapPc.pending, eq_comm]

@[simp] theorem swap_recvKill_iff {p : SwapPc} {a : SwapPc × List Op} :
    writerSwapRoutine p .recvKill = some a ↔ p = .select ∧ a = (.done, []) := by
  cases p <;> simp [writerSwapRoutine, eq_comm]

@[simp] theorem swap_tick_iff {p : SwapPc} {r : Option Nat} {a : SwapPc × List Op} :
    writerSwapRoutine p (.tick r) = some a ↔
      p = .select ∧
        a = (match r with | some w => (.sendWriter w, [Op.opened w]) | none => (.killWriter, [])) := by
  cases p <;> cases r <;> simp [writerSwapRoutine, eq_comm]

@[simp] theorem swap_sentWriter_iff {p : SwapPc} {a : SwapPc × List Op} :
    writerSwapRoutine p .sentWriter = some a ↔ (∃ w, p = .sendWriter w) ∧ a = (.select, []) := by
  cases p <;> simp [writerSwapRoutine, eq_comm]

@[simp] theorem swap_sentKillWriter_iff {p : SwapPc} {a : SwapPc × List Op} :
    writerSwapRoutine p .sentKillWriter = some a ↔ p = .killWriter ∧ a = (.killBuf, []) := by
  cases p <;> simp [writerSwapRoutine, eq_comm]

@[simp] theorem swap_sentKillBuf_iff {p : SwapPc} {a : SwapPc × List Op} :
    writerSwapRoutine p .sentKillBuf = some a ↔ p = .killBuf ∧ a = (.doneInLoop, []) := by
  cases p <;> simp [writerSwapRoutine, eq_comm]

@[simp] theorem swap_sentDone_iff {p : SwapPc} {a : SwapPc × List Op} :
    writerSwapRoutine p .sentDone = some a ↔
      (p = .doneInLoop ∧ a = (.done, [])) ∨ (p = .done ∧ a = (.exited, [])) := by
  cases p <;> simp [writerSwapRoutine, eq_comm]

@[simp] theorem writer_recvKill_iff {p : WriterPc} {a : WriterPc × List Op} :
    imageWriterRoutine p .recvKill = some a ↔ ∃ w, p = .select w ∧ a = (.closeOnKill w, []) := by
  cases p <;> simp [imageWriterRoutine, eq_comm]

@[simp] theorem writer_recvSwap_iff {p : WriterPc} {sig : Nat} {a : WriterPc × List Op} :
    imageWriterRoutine p (.recvSwap sig) = some a ↔
      ∃ w, p = .select w ∧ a = (.closeOld w sig, []) := by
  cases p <;> simp [imageWriterRoutine, eq_comm]

@[simp] theorem writer_recvImg_iff {p : WriterPc} {img : Nat} {a : WriterPc × List Op} :
    imageWriterRoutine p (.recvImg img) = some a ↔
      ∃ w, p = .select w ∧ a = (.write w img, []) := by
  cases p <;> simp [imageWriterRoutine, eq_comm]

@[simp] theorem writer_closeWriter_iff {p : WriterPc} {ok : Bool} {a : WriterPc × List Op} :
    imageWriterRoutine p (.closeWriter ok) = some a ↔
      ∃ w, p = .closeOnKill w ∧ a = (.done, [Op.close w ok]) := by
  cases p <;> simp [imageWriterRoutine, eq_comm]

@[simp] theorem writer_closeOldWriter_iff {p : WriterPc} {ok : Bool}
    {a : WriterPc × List Op} :
    imageWriterRoutine p (.closeOldWriter ok) = some a ↔
      ∃ w sig, p = .closeOld w sig ∧
        a = (if ok then .select sig else .killBuf w, [Op.close w ok]) := by
  cases p <;> cases ok <;> simp [imageWriterRoutine, eq_comm] <;> aesop

@[simp] theorem writer_writeImage_iff {p : WriterPc} {o k : Bool} {a : WriterPc × List Op} :
    imageWriterRoutine p (.writeImage o k) = some a ↔
      ∃ w img, p = .write w img ∧ a = (.select w, writeImage w img o k) := by
  cases p <;> cases o <;> simp [imageWriterRoutine, writeImage, eq_comm] <;> aesop

@[simp] theorem writer_sentKillBuf_iff {p : WriterPc} {a : WriterPc × List Op} :
    imageWriterRoutine p .sentKillBuf = some a ↔ ∃ w, p = .killBuf w ∧ a = (.killSwap w, []) := by
  cases p <;> simp [imageWriterRoutine, eq_comm]

@[simp] theorem writer_sentKillSwap_iff {p : WriterPc} {a : WriterPc × List Op} :
    imageWriterRoutine p .sentKillSwap = some a ↔ (∃ w, p = .killSwap w) ∧ a = (.done, []) := by
  cases p <;> simp [imageWriterRoutine, eq_comm]

@[simp] theorem writer_sentDone_iff {p : WriterPc} {a : WriterPc × List Op} :
    imageWriterRoutine p .sentDone = some a ↔ p = .done ∧ a = (.exited, []) := by
  cases p <;> simp [imageWriterRoutine, eq_comm]

/-- A property kept by every step holds along every run. -/
theorem exec_induction {C : Nat} {P : Sys → Prop}
    (hstep : ∀ s ev t, P s → step C s ev = some t → P t) :
    ∀ (evs : List Ev) (s t : Sys), P s → exec C s evs = some t → P t := by
  intro evs
  induction evs with
  | nil =>
    intro s t hs h
    simp only [exec, Option.some.injEq] at h
    exact h ▸ hs
  | cons e es ih =>
    intro s t hs h
    simp only [exec, Option.bind_eq_some] at h
    obtain ⟨u, hu, hrest⟩ := h
    exact ih u t (hstep s e u hs hu) hrest

theorem released_writeImage (w : Nat) (img : Nat) (o k : Bool) :
    (writeImage w img o k).filterMap Op.released? = [img] := by
  cases o <;> simp [writeImage, Op.released?]

/-! ## Acknowledgments -/

theorem buf_step_acks {p r : BufPc} {a : BufAct} (h : imageBufferRoutine p a = some r) :
    (if a = .sentDone then 1 else 0) + r.acksDue = p.acksDue := by
  cases p <;> rcases a with _ | (_ | _) | _ | _ | _ | _ <;>
    simp [imageBufferRoutine] at h <;> subst h <;> simp [BufPc.acksDue]

theorem bufRun_acks (acts : List BufAct) :
    ∀ p q, bufRun p acts = some q → acts.count .sentDone + q.acksDue = p.acksDue := by
  induction acts with
  | nil =>
    intro p q h
    simp [bufRun] at h
    simp [h]
  | cons a as ih =>
    intro p q h
    simp only [bufRun, Option.bind_eq_some] at h
    obtain ⟨r, hr, hrest⟩ := h
    have h1 := ih r q hrest
    have h2 := buf_step_acks hr
    rw [List.count_cons]
    simp only [beq_iff_eq]
    have h3 : (if a = BufAct.sentDone then 1 else 0) = (if BufAct.sentDone = a then 1 else 0) := by
      simp only [eq_comm]
    omega

/-- Every way `imageBufferRoutine` leaves its loop and returns sends one
acknowledgment. -/
theorem imageBufferRoutine_one_ack (acts : List BufAct)
    (h : bufRun .loop acts = some .exited) : acts.count .sentDone = 1 := by
  simpa [BufPc.acksDue] using bufRun_acks acts _ _ h

theorem writer_step_acks {p : WriterPc} {r : WriterPc × List Op} {a : WriterAct}
    (h : imageWriterRoutine p a = some r) :
    (if a = .sentDone then 1 else 0) + r.1.acksDue = p.acksDue := by
  rcases a with _ | _ | _ | _ | (_ | _) | _ | _ | _ | _ <;> simp at h <;>
    casesm* _ ∧ _, ∃ _, _ <;> subst_vars <;> simp [WriterPc.acksDue]

theorem writerRun_acks (acts : List WriterAct) :
    ∀ p q ops, writerRun p acts = some (q, ops) →
      acts.count .sentDone + q.acksDue = p.acksDue := by
  induction acts with
  | nil =>
    intro p q ops h
    simp [writerRun] at h
    simp [h.1]
  | cons a as ih =>
    intro p q ops h
    simp only [writerRun, Option.bind_eq_some, Option.map_eq_some'] at h
    obtain ⟨r, hr, ⟨q2, ops2⟩, hrest, heq⟩ := h
    simp only [Prod.mk.injEq] at heq
    obtain ⟨rfl, -⟩ := heq
    have h1 := ih r.1 q2 ops2 hrest
    have h2 := writer_step_acks hr
    rw [List.count_cons]
    simp only [beq_iff_eq]
    have h3 : (if a = WriterAct.sentDone then 1 else 0) =
        (if WriterAct.sentDone = a then 1 else 0) := by
      simp only [eq_comm]
    omega

/-- Every way `imageWriterRoutine` leaves its loop and returns sends one
acknowledgment. -/
theorem imageWriterRoutine_one_ack (writer : Nat) (acts : List WriterAct)
    (ops : List Op) (h : writerRun (.select writer) acts = some (.exited, ops)) :
    acts.count .sentDone = 1 := by
  simpa [WriterPc.acksDue] using writerRun_acks acts _ _ _ h

theorem swap_step_acks {p : SwapPc} {r : SwapPc × List Op} {a : SwapAct}
    (h : writerSwapRoutine p a = some r) :
    (if a = .sentDone then 1 else 0) + r.1.acksDue =
      p.acksDue + (if a = .tick none then 1 else 0) := by
  cases p <;> rcases a with _ | (_ | _) | _ | _ | _ | _ <;>
    simp [writerSwapRoutine] at h <;> subst h <;> simp [SwapPc.acksDue]

theorem swapRun_acks (acts : List SwapAct) :
    ∀ p q ops, swapRun p acts = some (q, ops) →
      acts.count .sentDone + q.acksDue = p.acksDue + acts.count (.tick none) := by
  induction acts with
  | nil =>
    intro p q ops h
    simp [swapRun] at h
    simp [h.1]
  | cons a as ih =>
    intro p q ops h
    simp only [swapRun, Option.bind_eq_some, Option.map_eq_some'] at h
    obtain ⟨r, hr, ⟨q2, ops2⟩, hrest, heq⟩ := h
    simp only [Prod.mk.injEq] at heq
    obtain ⟨rfl, -⟩ := heq
    have h1 := ih r.1 q2 ops2 hrest
    have h2 := swap_step_acks hr
    rw [List.count_cons, List.count_cons]
    simp only [beq_iff_eq]
    have h3 : (if a = SwapAct.sentDone then 1 else 0) =
        (if SwapAct.sentDone = a then 1 else 0) := by
      simp only [eq_comm]
    have h4 : (if a = SwapAct.tick none then 1 else 0) =
        (if SwapAct.tick none = a then 1 else 0) := by
      simp only [eq_comm]
    omega

/-- The acknowledgments `writerSwapRoutine` sends before it returns: one,
and one more when `newWriter` failed. -/
theorem writerSwapRoutine_acks (acts : List SwapAct) (ops : List Op)
    (h : swapRun .select acts = some (.exited, ops)) :
    acts.count .sentDone = 1 + acts.count (.tick none) := by
  simpa [SwapPc.acksDue] using swapRun_acks acts _ _ _ h

/-- C1, where the code departs from it: when `newWriter` fails,
`writerSwapRoutine` sends the two kills, then an acknowledgment inside the loop
(line 166) and, after the `break`, a second one (line 175). This way out of
the loop sends two acknowledgments on the done channel, not one; after the
first of them the routine has not yet returned. -/
theorem writerSwapRoutine_open_failure_sends_two_acks :
    swapRun .select [.tick none, .sentKillWriter, .sentKillBuf, .sentDone, .sentDone]
        = some (.exited, []) ∧
      [SwapAct.tick none, .sentKillWriter, .sentKillBuf, .sentDone, .sentDone].count .sentDone
        = 2 ∧
      swapRun .select [.tick none, .sentKillWriter, .sentKillBuf, .sentDone] = some (.done, []) := by
  decide

/-- C4: `writeImage` makes one `Write` through the sink when the sink reports
itself opened and none otherwise; whatever `Write` returns, it releases the
frame once (and no other frame), and the write worker, having received the
frame at its `select`, is back at the `select` with the same `writer`. -/
theorem writeImage_one_attempt_one_release (writer : Nat) (img : Nat)
    (isOpened writeOk : Bool) :
    writeAttempts (writeImage writer img isOpened writeOk) = (if isOpened then 1 else 0) ∧
    (writeImage writer img isOpened writeOk).count (Op.write writer img writeOk)
      = (if isOpened then 1 else 0) ∧
    releases img (writeImage writer img isOpened writeOk) = 1 ∧
    (writeImage writer img isOpened writeOk).filterMap Op.released? = [img] ∧
    writerRun (.select writer) [.recvImg img, .writeImage isOpened writeOk]
      = some (.select writer, writeImage writer img isOpened writeOk) := by
  cases isOpened <;>
    simp [writeImage, writeAttempts, releases, writerRun, imageWriterRoutine, Op.released?]

/-- C10, where the code departs from it: for each of the three ways
`initialize` fails (device, first read, first sink) it returns nil handles and
an error, and `main` registers `webcam.Close()` on the nil capture handle and
calls `img.Close()` on the nil frame before it looks at `err`. That call
panics, so `main` ends without having reached its check of `err` and without
having reported the error. -/
theorem main_panics_before_error_check :
    initializeMain 3 (.error "no such device") true 640 480 (.ok 0)
      = ⟨none, none, none, 0, 0, some "no such device"⟩ ∧
    mainPrologue (initializeMain 3 (.error "no such device") true 640 480 (.ok 0))
      = ([.deferWebcamClose none, .imgClose none, .webcamClose none], .panicked) ∧
    initializeMain 3 (.ok 0) false 640 480 (.ok 0)
      = ⟨none, none, none, 0, 0, some "cannot read device 3"⟩ ∧
    mainPrologue (initializeMain 3 (.ok 0) false 640 480 (.ok 0))
      = ([.deferWebcamClose none, .imgClose none, .webcamClose none], .panicked) ∧
    initializeMain 3 (.ok 0) true 640 480 (.error "cannot open file")
      = ⟨none, none, none, 0, 0, some "cannot open file"⟩ ∧
    mainPrologue (initializeMain 3 (.ok 0) true 640 480 (.error "cannot open file"))
      = ([.deferWebcamClose none, .imgClose none, .webcamClose none], .panicked) := by
  decide

/-- Whenever `initialize` returns an error, `main` panics on the nil frame: the
check of `err` and the report are not among what it does. -/
theorem mainPrologue_of_error (deviceID : Int) (webcam : Except String Nat) (readOk : Bool)
    (cols rows : Nat) (writer : Except String Nat)
    (h : (initializeMain deviceID webcam readOk cols rows writer).err.isSome) :
    mainPrologue (initializeMain deviceID webcam readOk cols rows writer)
      = ([.deferWebcamClose none, .imgClose none, .webcamClose none], .panicked) := by
  unfold initializeMain at h ⊢
  cases webcam with
  | error e => rfl
  | ok cam =>
    cases readOk with
    | false => rfl
    | true =>
      cases writer with
      | error e => rfl
      | ok w => simp at h

/-! ## File names -/

theorem appendInt_two (x : Nat) (h : x < 100) :
    appendInt (x : Int) 2 = [digit (x / 10), digit x] := by
  have h1 : ¬ ((x : Int) < 0) := by omega
  simp [appendInt, h1, h]

theorem appendInt_four (x : Int) (h0 : 0 ≤ x) (h : x ≤ 9999) :
    appendInt x 4 =
      [digit (x.toNat / 1000), digit (x.toNat / 100), digit (x.toNat / 10), digit x.toNat] := by
  have h1 : ¬ (x < 0) := by omega
  have h2 : x.natAbs < 10000 := by omega
  have h3 : x.natAbs = x.toNat := by omega
  have h4 : x.toNat < 10000 := by omega
  simp [appendInt, h1, h3, h4]

theorem format_data (t : Time) (ht : t.valid) :
    t.format.data =
      [digit (t.year.toNat / 1000), digit (t.year.toNat / 100), digit (t.year.toNat / 10),
        digit t.year.toNat, '-', digit (t.month / 10), digit t.month, '-',
        digit (t.day / 10), digit t.day, 'T', digit (t.hour / 10), digit t.hour,
        digit (t.minute / 10), digit t.minute, digit (t.second / 10), digit t.second] := by
  obtain ⟨hy0, hy, -, hmo, -, hd, hh, hmi, hs⟩ := ht
  simp [Time.format, appendInt_four t.year hy0 hy, appendInt_two t.month (by omega),
    appendInt_two t.day (by omega), appendInt_two t.hour (by omega),
    appendInt_two t.minute (by omega), appendInt_two t.second (by omega)]

theorem newWriterFilename_data (t : Time) (saveFile : String) :
    (newWriterFilename t saveFile).data = t.format.data ++ '-' :: saveFile.data := by
  simp [newWriterFilename, String.intercalate, String.intercalate.go]

/-- C9: for a clock reading in the years 0000 to 9999 the file `newWriter`
opens is named by the 17 characters YYYY-MM-DDThhmmss of the reading, then one
dash, then the base name unchanged: the first 17 characters are the timestamp,
character 17 is the dash, and dropping 18 characters gives back the base name. -/
theorem newWriter_file_name (t : Time) (saveFile : String) (ht : t.valid) :
    (newWriterFilename t saveFile).take 17 = t.format ∧
    t.format.length = 17 ∧
    t.format.data =
      [digit (t.year.toNat / 1000), digit (t.year.toNat / 100), digit (t.year.toNat / 10),
        digit t.year.toNat, '-', digit (t.month / 10), digit t.month, '-',
        digit (t.day / 10), digit t.day, 'T', digit (t.hour / 10), digit t.hour,
        digit (t.minute / 10), digit t.minute, digit (t.second / 10), digit t.second] ∧
    (newWriterFilename t saveFile).data.get? 17 = some '-' ∧
    (newWriterFilename t saveFile).drop 18 = saveFile ∧
    newWriterFilename t saveFile = t.format ++ "-" ++ saveFile ∧
    ∀ videoWriterFile,
      newWriter saveFile t videoWriterFile = videoWriterFile (newWriterFilename t saveFile) := by
  have hf := format_data t ht
  have hn := newWriterFilename_data t saveFile
  refine ⟨?_, ?_, hf, ?_, ?_, ?_, ?_⟩
  · rw [String.take_eq]
    apply String.ext
    simp [hn, hf]
  · show t.format.data.length = 17
    simp [hf]
  · simp [hn, hf]
  · rw [String.drop_eq]
    apply String.ext
    simp [hn, hf]
  · apply String.ext
    simp [hn]
  · intro v
    unfold newWriter
    cases v (newWriterFilename t saveFile) <;> rfl

theorem newWriter_file_name_witness :
    (newWriterFilename ⟨2026, 11, 2, 9, 5, 30⟩ "cam-0.avi").take 17 = "2026-11-02T090530" ∧
    (newWriterFilename ⟨2026, 11, 2, 9, 5, 30⟩ "cam-0.avi").drop 18 = "cam-0.avi" := by
  have h := newWriter_file_name ⟨2026, 11, 2, 9, 5, 30⟩ "cam-0.avi" (by decide)
  exact ⟨h.1.trans (by decide), h.2.2.2.2.1⟩

/-! ## Sinks -/

@[simp] theorem closedSinks_append (a b : List Op) :
    closedSinks (a ++ b) = closedSinks a ++ closedSinks b := by
  simp [closedSinks]

@[simp] theorem openedSinks_append (a b : List Op) :
    openedSinks (a ++ b) = openedSinks a ++ openedSinks b := by
  simp [openedSinks]

@[simp] theorem closeCalls_append (a b : List Op) :
    closeCalls (a ++ b) = closeCalls a + closeCalls b := by
  simp [closeCalls]

@[simp] theorem closedSinks_writeImage (w : Nat) (img : Nat) (o k : Bool) :
    closedSinks (writeImage w img o k) = [] := by
  cases o <;> simp [closedSinks, writeImage, Op.closed?]

@[simp] theorem openedSinks_writeImage (w : Nat) (img : Nat) (o k : Bool) :
    openedSinks (writeImage w img o k) = [] := by
  cases o <;> simp [openedSinks, writeImage, Op.opened?]

@[simp] theorem closeCalls_writeImage (w : Nat) (img : Nat) (o k : Bool) :
    closeCalls (writeImage w img o k) = 0 := by
  simp [closeCalls]

@[simp] theorem closedSinks_nil : closedSinks [] = [] := rfl
@[simp] theorem closedSinks_close (w : Nat) (ok : Bool) :
    closedSinks [Op.close w ok] = [w] := rfl
@[simp] theorem closedSinks_opened (w : Nat) : closedSinks [Op.opened w] = [] := rfl
@[simp] theorem openedSinks_nil : openedSinks [] = [] := rfl
@[simp] theorem openedSinks_close (w : Nat) (ok : Bool) :
    openedSinks [Op.close w ok] = [] := rfl
@[simp] theorem openedSinks_opened (w : Nat) : openedSinks [Op.opened w] = [w] := rfl
@[simp] theorem closeCalls_nil : closeCalls [] = 0 := rfl
@[simp] theorem closeCalls_close (w : Nat) (ok : Bool) :
    closeCalls [Op.close w ok] = 1 := rfl
@[simp] theorem closeCalls_opened (w : Nat) : closeCalls [Op.opened w] = 0 := rfl

set_option maxHeartbeats 4000000 in
theorem sinkInv_step (C : Nat) (s t : Sys) (ev : Ev) (hs : SinkInv s)
    (h : step C s ev = some t) : SinkInv t := by
  obtain ⟨m, b, w, p, q, nm, nw, ops⟩ := s
  rcases ev with _ | _ | _ | _ | (_ | _) | _ | _ | _ | _ | _ | (_ | _) | ok | ⟨o, k⟩ | _ | _ |
      (_ | _) | _ | _ | _ | _ | _ | _ <;>
    simp [step, Option.bind_eq_some, bufferImage] at h <;>
    casesm* _ ∧ _, ∃ _, _, _ ∨ _ <;>
    subst_vars <;> simp only [SinkInv, SwapPc.sending] at hs ⊢ <;>
    obtain ⟨h1, h2, h3, h4⟩ := hs <;> refine ⟨?_, ?_, ?_, ?_⟩ <;>
    first
      | assumption
      | (simp [h1, h2, List.range_succ]; done)
      | (simp at h3 h4 ⊢; omega)
      | (simp at h4 ⊢; simp [h2, h4, List.range_succ]; done)

theorem sinkInv_start : SinkInv start := by
  simp [SinkInv, start, SwapPc.sending, closeCalls, closedSinks, openedSinks, Op.opened?,
    Op.closed?, List.range_succ]

theorem sinkInv_reachable {C : Nat} {s : Sys} (h : Reachable C s) : SinkInv s := by
  obtain ⟨evs, hevs⟩ := h
  exact exec_induction (fun s ev t hs hstep => sinkInv_step C s t ev hs hstep) evs start s sinkInv_start hevs

theorem filter_range_not_mem (n k : Nat) :
    ((List.range n).filter fun w => decide (w ∉ List.range k)).length = n - k := by
  induction n with
  | zero => simp
  | succ n ih =>
    rw [List.range_succ, List.filter_append, List.length_append, ih]
    by_cases h : n < k
    · simp [h]
      omega
    · have h2 : k ≤ n := Nat.le_of_not_lt h
      simp [h, h2]
      omega

theorem unclosedSinks_eq {s : Sys} (h : SinkInv s) :
    unclosedSinks s = s.nextWriter - closeCalls s.ops := by
  obtain ⟨h1, h2, -, -⟩ := h
  unfold unclosedSinks
  rw [h1, h2]
  exact filter_range_not_mem _ _

/-- C3, amended: in every reachable state the opened sinks on which `Close`
has not been called are at most the write worker's `writer`, one sink it has
received and not yet made its `writer` (the old one is still to be closed),
and one sink the rotation scheduler has opened and is still sending: three at
most, not one. -/
theorem unclosed_sinks_at_most_three (C : Nat) (s : Sys) (h : Reachable C s) :
    unclosedSinks s ≤ 1 + s.wr.received + s.swap.sending ∧ unclosedSinks s ≤ 3 := by
  have hinv := sinkInv_reachable h
  rw [unclosedSinks_eq hinv]
  obtain ⟨-, -, -, h4⟩ := hinv
  have hs : s.swap.sending ≤ 1 := by
    cases s.swap <;> simp [SwapPc.sending]
  cases hw : s.wr <;> simp only [hw] at h4 <;> simp only [WriterPc.received] <;> omega

theorem unclosed_sinks_at_most_three_witness :
    unclosedSinks ⟨.readRune, .loop, .closeOld 0 1, .sendWriter 2, [], 0, 3,
      [.opened 0, .opened 1, .opened 2]⟩ ≤ 3 :=
  (unclosed_sinks_at_most_three 1 _ ⟨[.tick true, .handoff, .tick true], by decide⟩).2

/-- C3 as stated fails: after one rotation tick the sink opened by
`initialize` and the one opened by `newWriter` are both open and neither is
closed. -/
theorem two_sinks_open_after_tick :
    ∃ s, exec 5 start [.tick true] = some s ∧ unclosedSinks s = 2 := by
  refine ⟨_, rfl, ?_⟩
  decide

/-- Three sinks are open and not closed when a second tick comes between a
handoff and the `Close` the handoff leads to. -/
theorem three_sinks_open_reachable :
    ∃ s, exec 5 start [.tick true, .handoff, .tick true] = some s ∧ unclosedSinks s = 3 := by
  refine ⟨_, rfl, ?_⟩
  decide

/-- C7: in every reachable state, whatever the events and the outcomes of
the `Close` calls were, the write worker has called `Close` at most once on
each sink. -/
theorem close_called_at_most_once (C : Nat) (s : Sys) (h : Reachable C s) (w : Nat) :
    (closedSinks s.ops).count w ≤ 1 := by
  obtain ⟨-, h2, -, -⟩ := sinkInv_reachable h
  rw [h2]
  exact List.nodup_iff_count_le_one.1 (List.nodup_range _) w

theorem close_called_at_most_once_witness :
    (closedSinks [.opened 0, .opened 1, .close 0 true, .opened 2, .close 1 false]).count 1 ≤ 1 :=
  close_called_at_most_once 1
    ⟨.readRune, .loop, .killBuf 1, .select, [], 0, 3,
      [.opened 0, .opened 1, .close 0 true, .opened 2, .close 1 false]⟩
    ⟨[.tick true, .handoff, .closeOld true, .tick true, .handoff, .closeOld false], by decide⟩ 1

/-! ## Segments and the frame queue -/

theorem queue_step (C : Nat) (s t : Sys) (ev : Ev) (hs : s.queue.length ≤ C)
    (h : step C s ev = some t) : t.queue.length ≤ C := by
  obtain ⟨m, b, w, p, q, nm, nw, ops⟩ := s
  rcases ev with _ | _ | _ | _ | (_ | _) | _ | _ | _ | _ | _ | (_ | _) | ok | ⟨o, k⟩ | _ | _ |
      (_ | _) | _ | _ | _ | _ | _ | _ <;>
    simp [step, Option.bind_eq_some, bufferImage] at h <;>
    casesm* _ ∧ _, ∃ _, _, _ ∨ _ <;>
    subst_vars <;> simp_all <;> omega

theorem frames_step (C : Nat) (s t : Sys) (ev : Ev)
    (hs : framesAccounted s = List.range s.nextMat)
    (h : step C s ev = some t) : framesAccounted t = List.range t.nextMat := by
  obtain ⟨m, b, w, p, q, nm, nw, ops⟩ := s
  rcases ev with _ | _ | _ | _ | (_ | _) | _ | _ | _ | _ | _ | (_ | _) | ok | ⟨o, k⟩ | _ | _ |
      (_ | _) | _ | _ | _ | _ | _ | _ <;>
    simp [step, Option.bind_eq_some, bufferImage] at h <;>
    casesm* _ ∧ _, ∃ _, _, _ ∨ _ <;>
    subst_vars <;> (try cases q) <;>
    simp_all [framesAccounted, WriterPc.inHand, BufPc.pending, Op.released?,
      released_writeImage, List.range_succ, List.filterMap_append]

/-- C6: in every reachable state `imgBufferChannel` holds at most `C` frames;
the capture worker's send goes through only while fewer than `C` frames are
held and then appends its frame, it is not possible when `C` frames are held,
and every frame read is accounted for once, in order: released, in the write
worker's hands, in the channel, or waiting to be sent. -/
theorem queue_within_capacity (C : Nat) (s : Sys) (h : Reachable C s) :
    s.queue.length ≤ C ∧
    (∀ t, step C s .enqueue = some t →
      s.queue.length < C ∧ ∃ img, s.buf = .sendImg img ∧ t.queue = s.queue ++ [img]) ∧
    (s.queue.length = C → step C s .enqueue = none) ∧
    framesAccounted s = List.range s.nextMat := by
  obtain ⟨evs, hevs⟩ := h
  have h1 : s.queue.length ≤ C :=
    exec_induction (P := fun s => s.queue.length ≤ C)
      (fun s ev t hs hstep => queue_step C s t ev hs hstep) evs start s (by simp [start]) hevs
  have h2 : framesAccounted s = List.range s.nextMat :=
    exec_induction (P := fun s => framesAccounted s = List.range s.nextMat)
      (fun s ev t hs hstep => frames_step C s t ev hs hstep) evs start s (by decide) hevs
  refine ⟨h1, ?_, ?_, h2⟩
  · intro t ht
    simp [step, Option.bind_eq_some] at ht
    obtain ⟨img, hb, -, -, hlt, rfl⟩ := ht
    exact ⟨hlt, img, hb, rfl⟩
  · intro hfull
    simp [step, hfull]

theorem queue_within_capacity_witness :
    ([0, 1] : List Nat).length ≤ 2 :=
  (queue_within_capacity 2
    ⟨.readRune, .sendImg 2, .select 0, .select, [0, 1], 3, 1, [.opened 0]⟩
    ⟨[.read true, .enqueue, .read true, .enqueue, .read true], by decide⟩).1

/-! ## Swapping the sink -/

theorem closed_lt {ops : List Op} (h : closedSinks ops = List.range (closeCalls ops))
    {o : Op} (ho : o ∈ ops) {w : Nat} (hw : o.closed? = some w) : w < closeCalls ops := by
  have hm : w ∈ closedSinks ops := List.mem_filterMap.2 ⟨o, ho, hw⟩
  rw [h] at hm
  exact List.mem_range.1 hm

theorem noWrite_writeImage {ops : List Op} (a img : Nat) (o k : Bool)
    (hn : NoWriteAfterClose ops) (h2 : closedSinks ops = List.range (closeCalls ops))
    (ha : closeCalls ops = a) : NoWriteAfterClose (ops ++ writeImage a img o k) := by
  unfold NoWriteAfterClose at hn ⊢
  rw [List.pairwise_append]
  refine ⟨hn, ?_, ?_⟩
  · cases o <;> simp [writeImage, Op.closed?]
  · intro o1 ho1 o2 ho2
    cases hw : o1.closed? with
    | none => exact Or.inl rfl
    | some w =>
      right
      have hlt := closed_lt h2 ho1 hw
      cases o <;> simp [writeImage] at ho2 <;> casesm* _ ∨ _ <;> subst_vars <;>
        simp [Op.written?] <;> omega

theorem noWrite_other {ops new : List Op} (hn : NoWriteAfterClose ops)
    (hnew : new.length ≤ 1) (hw : ∀ o ∈ new, o.written? = none) :
    NoWriteAfterClose (ops ++ new) := by
  unfold NoWriteAfterClose at hn ⊢
  rw [List.pairwise_append]
  refine ⟨hn, ?_, ?_⟩
  · match new, hnew with
    | [], _ => simp
    | [_], _ => simp
  · intro o1 _ o2 ho2
    cases hc : o1.closed? with
    | none => exact Or.inl rfl
    | some w => simp [hw o2 ho2]

theorem noWrite_step (C : Nat) (s t : Sys) (ev : Ev)
    (hs : SinkInv s ∧ NoWriteAfterClose s.ops)
    (h : step C s ev = some t) : NoWriteAfterClose t.ops := by
  obtain ⟨⟨-, h2, -, h4⟩, hn⟩ := hs
  obtain ⟨m, b, w, p, q, nm, nw, ops⟩ := s
  rcases ev with _ | _ | _ | _ | (_ | _) | _ | _ | _ | _ | _ | (_ | _) | ok | ⟨o, k⟩ | _ | _ |
      (_ | _) | _ | _ | _ | _ | _ | _ <;>
    simp [step, Option.bind_eq_some, bufferImage] at h <;>
    casesm* _ ∧ _, ∃ _, _, _ ∨ _ <;>
    subst_vars <;>
    first
      | exact hn
      | exact noWrite_writeImage _ _ _ _ hn h2 h4.1
      | exact noWrite_other hn (by simp) (by simp [Op.written?])

theorem noWrite_reachable {C : Nat} {s : Sys} (h : Reachable C s) :
    SinkInv s ∧ NoWriteAfterClose s.ops := by
  obtain ⟨evs, hevs⟩ := h
  refine exec_induction (P := fun s => SinkInv s ∧ NoWriteAfterClose s.ops) ?_ evs start s
    ⟨sinkInv_start, by simp [NoWriteAfterClose, start, Op.closed?]⟩ hevs
  intro s ev t hs hstep
  exact ⟨sinkInv_step C s t ev hs.1 hstep, noWrite_step C s t ev hs hstep⟩

theorem writer_step_active {sig : Nat} {p : WriterPc} {a : WriterAct}
    {r : WriterPc × List Op} (h : imageWriterRoutine p a = some r)
    (ha : ∀ x, a ≠ .recvSwap x) (hp : p.activeIs sig) :
    r.1.activeIs sig ∧ ∀ o ∈ r.2, ∀ w, o.written? = some w → w = sig := by
  rcases a with _ | x | _ | _ | (_ | _) | ⟨o, k⟩ | _ | _ | _ <;> simp at h <;>
    casesm* _ ∧ _, ∃ _, _ <;> subst_vars <;>
    simp_all [WriterPc.activeIs, Op.written?]
  cases o <;> simp [writeImage, Op.written?]

theorem writerRun_active (sig : Nat) (acts : List WriterAct) :
    ∀ p q ops, writerRun p acts = some (q, ops) → (∀ x, .recvSwap x ∉ acts) →
      p.activeIs sig → q.activeIs sig ∧ ∀ o ∈ ops, ∀ w, o.written? = some w → w = sig := by
  induction acts with
  | nil =>
    intro p q ops h _ hp
    simp [writerRun] at h
    obtain ⟨rfl, rfl⟩ := h
    simp [hp]
  | cons a as ih =>
    intro p q ops h hno hp
    simp only [writerRun, Option.bind_eq_some, Option.map_eq_some'] at h
    obtain ⟨r, hr, ⟨q2, ops2⟩, hrest, heq⟩ := h
    simp only [Prod.mk.injEq] at heq
    obtain ⟨rfl, rfl⟩ := heq
    have h1 := writer_step_active hr
      (fun x hx => hno x (by simp [hx])) hp
    have h2 := ih r.1 q2 ops2 hrest (fun x hx => hno x (List.mem_cons_of_mem _ hx)) h1.1
    refine ⟨h2.1, ?_⟩
    intro o ho w hw
    rcases List.mem_append.1 ho with ho | ho
    · exact h1.2 o ho w hw
    · exact h2.2 o ho w hw

/-! ## Shutdown -/

set_option maxHeartbeats 4000000 in
theorem cleanInv_step (C : Nat) (s t : Sys) (ev : Ev) (hs : CleanInv s)
    (hf : ev.fatal = false) (h : step C s ev = some t) : CleanInv t := by
  obtain ⟨m, b, w, p, q, nm, nw, ops⟩ := s
  rcases ev with _ | _ | _ | _ | (_ | _) | _ | _ | _ | _ | _ | (_ | _) | ok | ⟨o, k⟩ | _ | _ |
      (_ | _) | _ | _ | _ | _ | _ | _ <;>
    simp [Ev.fatal] at hf <;>
    simp [step, Option.bind_eq_some, bufferImage] at h <;>
    casesm* _ ∧ _, ∃ _, _, _ ∨ _ <;>
    subst_vars <;>
    simp_all [CleanInv, MainPc.acksReceived, BufPc.acksDue, WriterPc.acksDue, SwapPc.acksDue,
      BufPc.running, WriterPc.running, SwapPc.running, BufPc.halted, WriterPc.halted,
      SwapPc.halted] <;>
    (try cases m) <;> (try cases b) <;> (try cases w) <;> (try cases p) <;>
    simp_all

set_option maxHeartbeats 4000000 in
theorem nextEv_progress (C : Nat) (s : Sys) (hs : CleanInv s) (hn : ¬ s.shutdownComplete) :
    ∃ t, step C s (nextEv s) = some t ∧ (nextEv s).fatal = false ∧ stepsLeft t < stepsLeft s := by
  obtain ⟨m, b, w, p, q, nm, nw, ops⟩ := s
  cases w <;> cases m <;>
    simp [CleanInv, WriterPc.running, WriterPc.halted, Sys.shutdownComplete] at hs hn <;>
    cases p <;> simp [SwapPc.running, SwapPc.halted, SwapPc.acksDue] at hs hn <;>
    cases b <;> simp [BufPc.running, BufPc.halted, MainPc.acksReceived, BufPc.acksDue,
      WriterPc.acksDue] at hs hn <;>
    (try cases q) <;>
    simp [nextEv, step, Ev.fatal, stepsLeft, MainPc.rank, WriterPc.busy, BufPc.sending,
      SwapPc.sending, main, imageBufferRoutine, imageWriterRoutine, writerSwapRoutine,
      BufPc.pending, SwapPc.pending, writeImage] <;>
    omega

theorem cleanInv_start : CleanInv start := by
  simp [CleanInv, start, MainPc.acksReceived, BufPc.acksDue, WriterPc.acksDue, SwapPc.acksDue,
    BufPc.running, WriterPc.running, SwapPc.running]

theorem cleanInv_exec (C : Nat) (evs : List Ev) :
    ∀ s t, CleanInv s → exec C s evs = some t → (∀ e ∈ evs, e.fatal = false) → CleanInv t := by
  induction evs with
  | nil =>
    intro s t hs h _
    simp only [exec, Option.some.injEq] at h
    exact h ▸ hs
  | cons e es ih =>
    intro s t hs h hok
    simp only [exec, Option.bind_eq_some] at h
    obtain ⟨u, hu, hrest⟩ := h
    exact ih u t (cleanInv_step C s u e hs (hok e (List.mem_cons_self _ _)) hu) hrest
      (fun x hx => hok x (List.mem_cons_of_mem _ hx))

theorem can_complete (C : Nat) :
    ∀ n s, stepsLeft s ≤ n → CleanInv s →
      ∃ evs t, (∀ e ∈ evs, e.fatal = false) ∧ exec C s evs = some t ∧ t.shutdownComplete := by
  intro n
  induction n with
  | zero =>
    intro s hn hs
    by_cases hfin : s.shutdownComplete
    · exact ⟨[], s, by simp, rfl, hfin⟩
    · obtain ⟨t, -, -, hlt⟩ := nextEv_progress C s hs hfin
      omega
  | succ n ih =>
    intro s hn hs
    by_cases hfin : s.shutdownComplete
    · exact ⟨[], s, by simp, rfl, hfin⟩
    · obtain ⟨t, hstep, hf, hlt⟩ := nextEv_progress C s hs hfin
      obtain ⟨evs, u, hok, hrun, hu⟩ :=
        ih t (by omega) (cleanInv_step C s t (nextEv s) hs hf hstep)
      refine ⟨nextEv s :: evs, u, ?_, ?_, hu⟩
      · intro e he
        rcases List.mem_cons.1 he with rfl | he
        · exact hf
        · exact hok e he
      · simp [exec, hstep, hrun]

/-- C2 as stated fails: after a failed read the capture worker stops the other
two workers, all three block on the done channel, and when the operator then
stops the recording `main` blocks on its first kill, which nobody receives any
more: no step is possible and the shutdown is not complete. -/
theorem shutdown_deadlocks_after_read_failure :
    ∃ s, exec 5 start [.read false, .bufKillSwap, .bufKillWriter, .closeOnKill true, .stdin]
        = some s ∧
      s.mainPc = .killSwap ∧ s.deadlocked 5 ∧ ¬ s.shutdownComplete := by
  refine ⟨_, rfl, rfl, ?_, by decide⟩
  intro ev
  rcases ev with _ | _ | _ | _ | (_ | _) | _ | _ | _ | _ | _ | (_ | _) | (_ | _) |
    ⟨_ | _, _ | _⟩ | _ | _ | (_ | _) | _ | _ | _ | _ | _ | _ <;> rfl

/-- C2, amended: as long as no worker has had a fatal error, the state
reached is not deadlocked (the shutdown is complete or a step without fatal
error is possible), the shutdown can be run to completion from it, and the
acknowledgments received and still due add up to three. -/
theorem shutdown_completes_without_fatal_error (C : Nat) (evs : List Ev) (s : Sys)
    (hrun : exec C start evs = some s) (hok : ∀ e ∈ evs, e.fatal = false) :
    (s.shutdownComplete ∨ ∃ e t, e.fatal = false ∧ step C s e = some t) ∧
    (∃ evs2 t, (∀ e ∈ evs2, e.fatal = false) ∧ exec C s evs2 = some t ∧ t.shutdownComplete) ∧
    s.mainPc.acksReceived + s.buf.acksDue + s.wr.acksDue + s.swap.acksDue = 3 := by
  have hinv := cleanInv_exec C evs start s cleanInv_start hrun hok
  refine ⟨?_, can_complete C (stepsLeft s) s (Nat.le_refl _) hinv, hinv.1⟩
  by_cases hfin : s.shutdownComplete
  · exact Or.inl hfin
  · obtain ⟨t, hstep, hf, -⟩ := nextEv_progress C s hinv hfin
    exact Or.inr ⟨nextEv s, t, hf, hstep⟩

theorem shutdown_completes_without_fatal_error_witness :
    ∃ evs2 t, (∀ e ∈ evs2, e.fatal = false) ∧
      exec 1 ⟨.killBuf, .sendImg 1, .select 0, .done, [0], 2, 1, [.opened 0]⟩ evs2 = some t ∧
      t.shutdownComplete :=
  (shutdown_completes_without_fatal_error 1
    [.read true, .enqueue, .read true, .stdin, .mainKillSwap] _ (by decide) (by decide)).2.1

set_option maxHeartbeats 4000000 in
theorem stranded_step (C : Nat) (s t : Sys) (ev : Ev) (b : Bool)
    (hs : KillOrder s ∧ (b = true → Stranded s)) (h : step C s ev = some t) :
    KillOrder t ∧ ((b || ev.fatal) = true → Stranded t) := by
  obtain ⟨m, bf, w, p, q, nm, nw, ops⟩ := s
  rcases ev with _ | _ | _ | _ | (_ | _) | _ | _ | _ | _ | _ | (_ | _) | ok | ⟨o, k⟩ | _ | _ |
      (_ | _) | _ | _ | _ | _ | _ | _ <;>
    simp [step, Option.bind_eq_some, bufferImage] at h <;>
    casesm* _ ∧ _, ∃ _, _, _ ∨ _ <;>
    subst_vars <;>
    simp_all [KillOrder, Stranded, Ev.fatal, MainPc.rank, BufPc.running, WriterPc.running,
      SwapPc.running]


theorem stranded_exec (C : Nat) (evs : List Ev) :
    ∀ (s t : Sys) (b : Bool), KillOrder s ∧ (b = true → Stranded s) → exec C s evs = some t →
      KillOrder t ∧ ((b || evs.any Ev.fatal) = true → Stranded t) := by
  induction evs with
  | nil =>
    intro s t b hs h
    simp only [exec, Option.some.injEq] at h
    subst h
    simpa using hs
  | cons e es ih =>
    intro s t b hs h
    simp only [exec, Option.bind_eq_some] at h
    obtain ⟨u, hu, hrest⟩ := h
    have h1 := ih u t (b || e.fatal) (stranded_step C s u e b hs hu) hrest
    simpa [Bool.or_assoc] using h1

/-- Once a worker has had a fatal error the shutdown never completes: `main`
does not get past its three kills, so it receives no acknowledgment at all. -/
theorem fatal_error_never_completes (C : Nat) (evs : List Ev) (s : Sys)
    (hrun : exec C start evs = some s) (hf : ∃ e ∈ evs, e.fatal = true) :
    4 ≤ s.mainPc.rank ∧ s.mainPc.acksReceived = 0 ∧ ¬ s.shutdownComplete := by
  have h0 : KillOrder start ∧ (false = true → Stranded start) := by
    simp [KillOrder, start, MainPc.rank]
  have h := (stranded_exec C evs start s false h0 hrun).2
  have hany : evs.any Ev.fatal = true := by
    obtain ⟨e, he, hfe⟩ := hf
    exact List.any_eq_true.2 ⟨e, he, hfe⟩
  have hst : Stranded s := h (by simp [hany])
  have hr : 4 ≤ s.mainPc.rank := by
    rcases hst with ⟨-, h⟩ | ⟨-, h⟩ | ⟨-, h⟩ <;> omega
  refine ⟨hr, ?_, ?_⟩
  · cases hm : s.mainPc <;> simp [hm, MainPc.rank, MainPc.acksReceived] at hr ⊢
  · intro hc
    rw [hc.1] at hr
    simp [MainPc.rank] at hr

/-! ## Order of the writes -/

@[simp] theorem writtenSinks_append (a b : List Op) :
    writtenSinks (a ++ b) = writtenSinks a ++ writtenSinks b := by
  simp [writtenSinks]

@[simp] theorem writtenSinks_nil : writtenSinks [] = [] := rfl
@[simp] theorem writtenSinks_close (w : Nat) (ok : Bool) :
    writtenSinks [Op.close w ok] = [] := rfl
@[simp] theorem writtenSinks_opened (w : Nat) : writtenSinks [Op.opened w] = [] := rfl
@[simp] theorem writtenSinks_writeImage (w img : Nat) (o k : Bool) :
    writtenSinks (writeImage w img o k) = if o then [w] else [] := by
  cases o <;> simp [writtenSinks, writeImage, Op.written?]

theorem written_step (C : Nat) (s t : Sys) (ev : Ev)
    (hs : SinkInv s ∧ (∀ w ∈ writtenSinks s.ops, w ≤ closeCalls s.ops) ∧
      (writtenSinks s.ops).Pairwise (· ≤ ·))
    (h : step C s ev = some t) :
    (∀ w ∈ writtenSinks t.ops, w ≤ closeCalls t.ops) ∧
      (writtenSinks t.ops).Pairwise (· ≤ ·) := by
  obtain ⟨⟨-, -, -, h4⟩, hle, hp⟩ := hs
  obtain ⟨m, b, w, p, q, nm, nw, ops⟩ := s
  rcases ev with _ | _ | _ | _ | (_ | _) | _ | _ | _ | _ | _ | (_ | _) | ok | ⟨o, k⟩ | _ | _ |
      (_ | _) | _ | _ | _ | _ | _ | _ <;>
    simp [step, Option.bind_eq_some, bufferImage] at h <;>
    casesm* _ ∧ _, ∃ _, _, _ ∨ _ <;>
    subst_vars <;>
    simp only [writtenSinks_append, closeCalls_append, closeCalls_writeImage,
      writtenSinks_writeImage, writtenSinks_nil, writtenSinks_close, writtenSinks_opened,
      closeCalls_nil, closeCalls_close, closeCalls_opened, List.append_nil, Nat.add_zero]
      at hle hp h4 ⊢ <;>
    first
      | exact ⟨hle, hp⟩
      | exact ⟨fun w hw => Nat.le_succ_of_le (hle w hw), hp⟩
      | (cases o
         · simpa using ⟨hle, hp⟩
         · simp only [ite_true, List.mem_append, List.mem_singleton, List.pairwise_append,
             List.pairwise_singleton, true_and]
           refine ⟨?_, hp, ?_⟩
           · rintro x (hx | rfl)
             · exact hle x hx
             · omega
           · intro x hx y hy
             have := hle x hx
             omega)

theorem written_reachable {C : Nat} {s : Sys} (h : Reachable C s) :
    SinkInv s ∧ (∀ w ∈ writtenSinks s.ops, w ≤ closeCalls s.ops) ∧
      (writtenSinks s.ops).Pairwise (· ≤ ·) := by
  obtain ⟨evs, hevs⟩ := h
  refine exec_induction
    (P := fun s => SinkInv s ∧ (∀ w ∈ writtenSinks s.ops, w ≤ closeCalls s.ops) ∧
      (writtenSinks s.ops).Pairwise (· ≤ ·)) ?_ evs start s
    ⟨sinkInv_start, by simp [writtenSinks, start, Op.written?],
      by simp [writtenSinks, start, Op.written?]⟩ hevs
  intro s ev t hs hstep
  exact ⟨sinkInv_step C s t ev hs.1 hstep, written_step C s t ev hs hstep⟩

/-- Frames are never written to two files in turn: along every run the sinks
of the successive `Write` calls never go back to an earlier sink. -/
theorem writes_follow_sink_order (C : Nat) (s : Sys) (h : Reachable C s) :
    (writtenSinks s.ops).Pairwise (· ≤ ·) :=
  (written_reachable h).2.2

/-! ## After a failed close -/

set_option maxHeartbeats 4000000 in
theorem failedClose_step (C : Nat) (old : Nat) (W K : List Nat) (s t : Sys) (ev : Ev)
    (hs : s.wr.afterFailedClose old ∧ 4 ≤ s.mainPc.rank ∧ writtenSinks s.ops = W ∧
      closedSinks s.ops = K)
    (h : step C s ev = some t) :
    t.wr.afterFailedClose old ∧ 4 ≤ t.mainPc.rank ∧ writtenSinks t.ops = W ∧
      closedSinks t.ops = K := by
  obtain ⟨m, b, w, p, q, nm, nw, ops⟩ := s
  rcases ev with _ | _ | _ | _ | (_ | _) | _ | _ | _ | _ | _ | (_ | _) | ok | ⟨o, k⟩ | _ | _ |
      (_ | _) | _ | _ | _ | _ | _ | _ <;>
    simp [step, Option.bind_eq_some, bufferImage] at h <;>
    casesm* _ ∧ _, ∃ _, _, _ ∨ _ <;>
    subst_vars <;>
    simp_all [WriterPc.afterFailedClose, MainPc.rank]

set_option maxHeartbeats 4000000 in
theorem stuck_step (s t : Sys) (ev : Ev)
    (hs : s.wr = .killBuf 0 ∧ s.buf = .sendImg 1 ∧ s.queue = [0])
    (h : step 1 s ev = some t) :
    t.wr = .killBuf 0 ∧ t.buf = .sendImg 1 ∧ t.queue = [0] := by
  obtain ⟨m, b, w, p, q, nm, nw, ops⟩ := s
  rcases ev with _ | _ | _ | _ | (_ | _) | _ | _ | _ | _ | _ | (_ | _) | ok | ⟨o, k⟩ | _ | _ |
      (_ | _) | _ | _ | _ | _ | _ | _ <;>
    simp [step, Option.bind_eq_some, bufferImage] at h <;>
    casesm* _ ∧ _, ∃ _, _, _ ∨ _ <;>
    subst_vars <;>
    simp_all

/-- C5 as stated fails: with a queue of capacity one, the capture worker is
parked on the full queue when `oldWriter.Close()` fails; the write worker then
stands at its kill to the capture worker, which is never received: whatever
happens next it sends no kill to the rotation scheduler, does not leave its
loop and does not acknowledge. -/
theorem write_worker_blocks_after_failed_close :
    ∃ s, exec 1 start [.tick true, .read true, .enqueue, .read true, .handoff, .closeOld false]
        = some s ∧
      s.wr = .killBuf 0 ∧ ∀ evs t, exec 1 s evs = some t → t.wr = .killBuf 0 := by
  refine ⟨_, rfl, rfl, ?_⟩
  intro evs t h
  exact (exec_induction (P := fun s => s.wr = .killBuf 0 ∧ s.buf = .sendImg 1 ∧ s.queue = [0])
    (fun s ev t hs hstep => stuck_step s t ev hs hstep) evs _ t ⟨rfl, rfl, rfl⟩ h).1

theorem killOrder_reachable {C : Nat} {s : Sys} (h : Reachable C s) : KillOrder s := by
  obtain ⟨evs, hevs⟩ := h
  have h0 : KillOrder start ∧ (false = true → Stranded start) := by
    simp [KillOrder, start, MainPc.rank]
  exact (stranded_exec C evs start s false h0 hevs).1

theorem failedClose_forever (C : Nat) (s : Sys) (h : Reachable C s) (old sig : Nat)
    (hw : s.wr = .closeOld old sig) (t : Sys) (ht : step C s (.closeOld false) = some t) :
    t.wr = .killBuf old ∧
      ∀ evs u, exec C t evs = some u →
        (u.wr = .killBuf old ∨ u.wr = .killSwap old ∨ u.wr = .done) ∧
        writtenSinks u.ops = writtenSinks s.ops ∧
        closedSinks u.ops = closedSinks s.ops ++ [old] := by
  have hk := (killOrder_reachable h).2.2
  obtain ⟨m, b, w, p, q, nm, nw, ops⟩ := s
  simp only at hw
  subst hw
  simp [step, Option.bind_eq_some] at ht
  subst ht
  refine ⟨rfl, ?_⟩
  intro evs u hu
  have hinv := exec_induction
    (P := fun s => s.wr.afterFailedClose old ∧ 4 ≤ s.mainPc.rank ∧
      writtenSinks s.ops = writtenSinks ops ∧ closedSinks s.ops = closedSinks ops ++ [old])
    (fun s ev t hs hstep => failedClose_step C old _ _ s t ev hs hstep) evs _ u
    ⟨by simp [WriterPc.afterFailedClose], by simpa [WriterPc.running] using hk,
      by simp [writtenSinks, Op.written?], by simp⟩ hu
  refine ⟨?_, hinv.2.2.1, hinv.2.2.2⟩
  have h1 := hinv.1
  cases hu2 : u.wr <;> simp [hu2, WriterPc.afterFailedClose] at h1 ⊢
  · exact h1
  · exact h1


/-- C5, amended: servicing a new-segment event, the write worker first calls
`Close` on its `writer`; on success the received sink is its `writer`, every
`Write` up to the next new-segment event goes through it, and in no reachable
state does a `Write` go through a sink after `Close` was called on it; on
failure `writer` is unchanged, and in the program as a whole, whatever happens
next, the worker calls no further `Write` or `Close` and stands at the kill to
the capture worker, at the kill to the rotation scheduler or at its
acknowledgment, which it can leave only in this order and only when the send
is received; it never gets past the acknowledgment. -/
theorem swap_close_then_activate (C : Nat) (s : Sys) (h : Reachable C s) (old sig : Nat) :
    (∀ ok, writerRun (.select old) [.recvSwap sig, .closeOldWriter ok]
      = some (if ok then .select sig else .killBuf old, [Op.close old ok])) ∧
    (∀ acts q ops, writerRun (.select sig) acts = some (q, ops) →
      (∀ x, .recvSwap x ∉ acts) → ∀ o ∈ ops, ∀ w, o.written? = some w → w = sig) ∧
    NoWriteAfterClose s.ops ∧
    (∀ act r, imageWriterRoutine (.killBuf old) act = some r →
      act = .sentKillBuf ∧ r = (.killSwap old, [])) ∧
    (∀ act r, imageWriterRoutine (.killSwap old) act = some r →
      act = .sentKillSwap ∧ r = (.done, [])) ∧
    (∀ act r, imageWriterRoutine .done act = some r → act = .sentDone ∧ r = (.exited, [])) ∧
    (s.wr = .closeOld old sig → ∀ t, step C s (.closeOld false) = some t →
      t.wr = .killBuf old ∧
      ∀ evs u, exec C t evs = some u →
        (u.wr = .killBuf old ∨ u.wr = .killSwap old ∨ u.wr = .done) ∧
        writtenSinks u.ops = writtenSinks s.ops ∧
        closedSinks u.ops = closedSinks s.ops ++ [old]) := by
  refine ⟨?_, ?_, (noWrite_reachable h).2, ?_, ?_, ?_, ?_⟩
  · intro ok
    cases ok <;> simp [writerRun, imageWriterRoutine]
  · intro acts q ops hrun hno
    exact (writerRun_active sig acts _ q ops hrun hno (by simp [WriterPc.activeIs])).2
  · intro act r hr
    rcases act with _ | x | _ | _ | (_ | _) | ⟨o, k⟩ | _ | _ | _ <;>
      simp [imageWriterRoutine] at hr ⊢
    exact hr.symm
  · intro act r hr
    rcases act with _ | x | _ | _ | (_ | _) | ⟨o, k⟩ | _ | _ | _ <;>
      simp [imageWriterRoutine] at hr ⊢
    exact hr.symm
  · intro act r hr
    rcases act with _ | x | _ | _ | (_ | _) | ⟨o, k⟩ | _ | _ | _ <;>
      simp [imageWriterRoutine] at hr ⊢
    exact hr.symm
  · intro hw t ht
    exact failedClose_forever C s h old sig hw t ht

theorem swap_close_then_activate_witness :
    NoWriteAfterClose [.opened 0, .opened 1] ∧
    ∀ evs u,
      exec 1 ⟨.readRune, .loop, .killBuf 0, .select, [], 0, 2,
        [.opened 0, .opened 1, .close 0 false]⟩ evs = some u →
      (u.wr = .killBuf 0 ∨ u.wr = .killSwap 0 ∨ u.wr = .done) ∧
        writtenSinks u.ops = [] ∧ closedSinks u.ops = [0] :=
  have h := swap_close_then_activate 1
    ⟨.readRune, .loop, .closeOld 0 1, .select, [], 0, 2, [.opened 0, .opened 1]⟩
    ⟨[.tick true, .handoff], by decide⟩ 0 1
  ⟨h.2.2.1, (h.2.2.2.2.2.2 rfl
    ⟨.readRune, .loop, .killBuf 0, .select, [], 0, 2, [.opened 0, .opened 1, .close 0 false]⟩
    (by decide)).2⟩

end Govidya
